import Mathlib

/-!
# Verification of the snowflake-webext proxy core

A shallow embedding of the snowflake proxy runtime (scheduler, session,
relay-pattern matcher, rate-limiter selection) together with proofs of the
specified properties.

JavaScript strings are modelled as lists of characters (`JSStr`).  The
browser-provided primitives that the code merely consumes (URL parsing,
JSON parsing, WebRTC/WebSocket objects) are modelled as oracle parameters:
each fallible external call is an `Except Unit` outcome supplied to the
embedded function, and transport objects are explicit state records.
-/

namespace SnowflakeProxy

/-- JavaScript strings, modelled as their sequence of characters. -/
abbrev JSStr := List Char

/-- `String.prototype.charAt(0)`: the first character as a (possibly empty)
one-character string; here `none` models the empty result `""`. -/
def jsCharAt0 (s : JSStr) : Option Char :=
  match s with
  | [] => none
  | c :: _ => some c

/-- `String.prototype.substring(1)`: drop the first character. -/
def jsSubstring1 (s : JSStr) : JSStr := s.drop 1

/-- `a.localeCompare(b) === 0`.  Modelled as plain string equality (the
collator distinctions beyond codepoint equality are outside the embedding). -/
def localeCompareEqZero (a b : JSStr) : Bool := a == b

/-- `String.prototype.endsWith(pattern)`: `pattern` is a suffix of the
receiver. -/
def jsEndsWith (s pattern : JSStr) : Bool := pattern.isSuffixOf s

/-- `Snowflake.checkRelayPattern(pattern, str)` from `snowflake.js`:
if the pattern's first character is `^` the remainder must compare equal to
`str`; otherwise `str` must end with `pattern`. -/
def checkRelayPattern (pattern str : JSStr) : Bool :=
  let exactMatch := jsCharAt0 pattern == some '^'
  let pattern' := if exactMatch then jsSubstring1 pattern else pattern
  if exactMatch then
    localeCompareEqZero pattern' str
  else
    jsEndsWith str pattern'

theorem isSuffixOf_iff_suffix (l₁ l₂ : JSStr) :
    l₁.isSuffixOf l₂ = true ↔ l₁ <:+ l₂ := by
  rw [List.isSuffixOf, List.isPrefixOf_iff_prefix, List.reverse_prefix]

theorem checkRelayPattern_caret (p h : JSStr) (hp : p.head? = some '^') :
    checkRelayPattern p h = true ↔ h = p.tail := by
  cases p with
  | nil => simp at hp
  | cons c rest =>
    simp only [List.head?_cons, Option.some.injEq] at hp
    subst hp
    simp [checkRelayPattern, jsCharAt0, jsSubstring1, localeCompareEqZero]
    exact eq_comm

theorem checkRelayPattern_suffix (p h : JSStr) (hp : p.head? ≠ some '^') :
    checkRelayPattern p h = true ↔ p <:+ h := by
  cases p with
  | nil =>
    simp [checkRelayPattern, jsCharAt0, jsEndsWith, isSuffixOf_iff_suffix]
  | cons c rest =>
    simp only [List.head?_cons, ne_eq, Option.some.injEq] at hp
    simp [checkRelayPattern, jsCharAt0, hp, jsEndsWith, isSuffixOf_iff_suffix]

/-! ## `Snowflake.receiveOffer`

The relay-URL validation and offer handling in `Snowflake.receiveOffer`.
Browser primitives are oracles: `new URL(relayURL)` either throws or yields
a `URLParts`; `JSON.parse(desc)`/`new RTCSessionDescription` either throw or
succeed; `pair.receiveWebRTCOffer` either throws or returns a boolean.  The
embedding records the returned boolean and whether `pair.setRelayURL` was
invoked. -/

/-- The `protocol` and `hostname` components of a parsed URL. -/
structure URLParts where
  protocol : JSStr
  hostname : JSStr
deriving DecidableEq

/-- Outcome of a call to `Snowflake.receiveOffer`: the boolean return value,
and whether `pair.setRelayURL` was invoked during the call. -/
structure ReceiveOfferResult where
  result : Bool
  setRelayURLInvoked : Bool
deriving DecidableEq

/-- The tail of `Snowflake.receiveOffer` after the relay-URL block:
`JSON.parse(desc)` and `new RTCSessionDescription`, then
`pair.receiveWebRTCOffer`; an exception anywhere is caught by the enclosing
`try` and turns into a `false` return. -/
def receiveOfferRest (setInvoked : Bool) (offerParse : Except Unit Unit)
    (recvWebRTC : Except Unit Bool) : ReceiveOfferResult :=
  match offerParse with
  | .error _ => ⟨false, setInvoked⟩
  | .ok _ =>
    match recvWebRTC with
    | .error _ => ⟨false, setInvoked⟩
    | .ok r => ⟨r, setInvoked⟩

/-- `Snowflake.receiveOffer(pair, desc, relayURL)` from `snowflake.js`.
`relayParse` is `none` when `relayURL === undefined`, otherwise the outcome
of `new URL(relayURL)` (`.error` models a thrown exception).  When a URL was
supplied: a non-`wss:` protocol fails, a hostname rejected by
`checkRelayPattern(config.allowedRelayPattern, hostname)` fails, otherwise
`pair.setRelayURL` is invoked and the offer is processed. -/
def receiveOffer (allowedRelayPattern : JSStr)
    (relayParse : Option (Except Unit URLParts))
    (offerParse : Except Unit Unit) (recvWebRTC : Except Unit Bool) :
    ReceiveOfferResult :=
  match relayParse with
  | none => receiveOfferRest false offerParse recvWebRTC
  | some (.error _) => ⟨false, false⟩
  | some (.ok u) =>
    if u.protocol ≠ "wss:".data then ⟨false, false⟩
    else if checkRelayPattern allowedRelayPattern u.hostname = false then
      ⟨false, false⟩
    else receiveOfferRest true offerParse recvWebRTC

theorem receiveOfferRest_setInvoked (b : Bool) (op : Except Unit Unit)
    (rcv : Except Unit Bool) :
    (receiveOfferRest b op rcv).setRelayURLInvoked = b := by
  cases op <;> cases rcv <;> rfl

theorem receiveOfferRest_error_left (b : Bool) (rcv : Except Unit Bool) :
    (receiveOfferRest b (.error ()) rcv).result = false := by
  cases rcv <;> rfl

/-- C2: `checkRelayPattern` does exact matching (against the pattern with the
leading `^` stripped) when the pattern starts with `^`, and suffix matching
otherwise; in particular the four round-trip examples hold. -/
theorem checkRelayPattern_spec :
    (∀ p h : JSStr, p.head? = some '^' →
      (checkRelayPattern p h = true ↔ h = p.tail)) ∧
    (∀ p h : JSStr, p.head? ≠ some '^' →
      (checkRelayPattern p h = true ↔ p <:+ h)) ∧
    checkRelayPattern "^foo".data "foo".data = true ∧
    checkRelayPattern "^foo".data "foobar".data = false ∧
    checkRelayPattern "foo".data "barfoo".data = true ∧
    checkRelayPattern "foo".data "fooX".data = false :=
  ⟨checkRelayPattern_caret, checkRelayPattern_suffix,
    by decide, by decide, by decide, by decide⟩

/-- Witness for C2 at the concrete pattern `"^foo"` and host `"foo"`. -/
theorem checkRelayPattern_spec_witness :
    ("^foo".data.head? = some '^') ∧
    (checkRelayPattern "^foo".data "foo".data = true ↔
      "foo".data = "^foo".data.tail) :=
  ⟨by decide, checkRelayPattern_spec.1 "^foo".data "foo".data (by decide)⟩

/-- C1: when a relay URL is supplied, `receiveOffer` returns `false` unless
the parsed protocol is `wss:` and the hostname matches the configured
pattern; `setRelayURL` is invoked exactly when both checks pass; and a
thrown exception while parsing the relay URL or the offer yields `false`. -/
theorem receiveOffer_relay_validation
    (pat : JSStr) (u : Except Unit URLParts)
    (op : Except Unit Unit) (rcv : Except Unit Bool) :
    (u = .error () → (receiveOffer pat (some u) op rcv).result = false) ∧
    (∀ parts, u = .ok parts →
      (parts.protocol ≠ "wss:".data ∨
        checkRelayPattern pat parts.hostname = false) →
      (receiveOffer pat (some u) op rcv).result = false) ∧
    (op = .error () → (receiveOffer pat (some u) op rcv).result = false) ∧
    ((receiveOffer pat (some u) op rcv).setRelayURLInvoked = true ↔
      ∃ parts, u = .ok parts ∧ parts.protocol = "wss:".data ∧
        checkRelayPattern pat parts.hostname = true) := by
  refine ⟨?_, ?_, ?_, ?_⟩
  · rintro rfl; rfl
  · rintro parts rfl hbad
    rcases hbad with hproto | hpat
    · simp [receiveOffer, hproto]
    · simp only [receiveOffer, hpat]
      split
      · rfl
      · simp
  · intro hop
    cases u with
    | error e => rfl
    | ok parts =>
      subst hop
      simp only [receiveOffer]
      split
      · rfl
      · split
        · rfl
        · exact receiveOfferRest_error_left true rcv
  · cases u with
    | error e =>
      simp [receiveOffer]
    | ok parts =>
      by_cases hproto : parts.protocol = "wss:".data
      · by_cases hpat : checkRelayPattern pat parts.hostname = true
        · simp [receiveOffer, hproto, hpat, receiveOfferRest_setInvoked]
        · simp only [Bool.not_eq_true] at hpat
          simp [receiveOffer, hpat]
      · simp [receiveOffer, hproto]

/-- Witness for C1: a supplied relay URL with protocol `http:` is rejected. -/
theorem receiveOffer_relay_validation_witness :
    (receiveOffer "p".data (some (.ok ⟨"http:".data, "x".data⟩))
      (.ok ()) (.ok true)).result = false :=
  (receiveOffer_relay_validation "p".data (.ok ⟨"http:".data, "x".data⟩)
    (.ok ()) (.ok true)).2.1 ⟨"http:".data, "x".data⟩ rfl (Or.inl (by decide))

/-- C10: the empty pattern matches every host (it is a suffix of every
string), so with `allowedRelayPattern = ""` the hostname check in
`receiveOffer` accepts every hostname of a `wss:` URL and `setRelayURL` is
invoked. -/
theorem checkRelayPattern_empty_accepts_all :
    (∀ h : JSStr, checkRelayPattern [] h = true) ∧
    (∀ (host : JSStr) (op : Except Unit Unit) (rcv : Except Unit Bool),
      (receiveOffer [] (some (.ok ⟨"wss:".data, host⟩))
        op rcv).setRelayURLInvoked = true) := by
  have hempty : ∀ h : JSStr, checkRelayPattern [] h = true := by
    intro h
    have : ([] : JSStr) <:+ h := List.nil_suffix
    exact (checkRelayPattern_suffix [] h (by simp)).mpr this
  refine ⟨hempty, ?_⟩
  intro host op rcv
  simp [receiveOffer, hempty host, receiveOfferRest_setInvoked]

/-! ## The scheduler's `datachannelTimeout` callback

`Snowflake.pollBroker` arms a timer for `config.datachannelTimeout`; the
callback adjusts the poll interval, the NAT-failure counter, the proxy's own
NAT classification (`ui.natType`) and `config.maxNumClients`.  The state it
reads and writes is captured in `SchedState`; the configuration constants it
reads are in `SchedConfig`. -/

/-- The poll-interval constants from `Config` consumed by the callback. -/
structure SchedConfig where
  defaultBrokerPollInterval : Int
  slowestBrokerPollInterval : Int
  pollAdjustment : Int
  fastBrokerPollInterval : Int

/-- `Config` defaults: 60 s default, 6 h slowest, 100 s adjustment, 30 s
fast (all in milliseconds). -/
def defaultSchedConfig : SchedConfig :=
  { defaultBrokerPollInterval := 60 * 1000
    slowestBrokerPollInterval := 6 * 60 * 60 * 1000
    pollAdjustment := 100 * 1000
    fastBrokerPollInterval := 30 * 1000 }

/-- The mutable scheduler state touched by the `datachannelTimeout`
callback: `this.pollInterval`, `this.natFailures`, `this.ui.natType` and
`this.config.maxNumClients`. -/
structure SchedState where
  pollInterval : Int
  natFailures : Nat
  natType : String
  maxNumClients : Nat
deriving DecidableEq

/-- The `datachannelTimeout` callback in `Snowflake.pollBroker`.
`clientNAT` is `resp.NAT` captured at poll time; `webrtcIsReady` is
`pair.webrtcIsReady()` at callback time.  On failure the poll interval is
slowed (capped at the slowest interval), a restricted client bumps
`natFailures`, and three accumulated failures reclassify our own NAT as
`restricted` with `maxNumClients = 1`.  On success the poll interval is
sped up (floored at the default), `natFailures` resets, and an
`unrestricted` own NAT selects the fast interval with `maxNumClients = 2`. -/
def datachannelTimeoutCallback (cfg : SchedConfig) (clientNAT : String)
    (webrtcIsReady : Bool) (s : SchedState) : SchedState :=
  if !webrtcIsReady then
    let s1 := { s with
      pollInterval :=
        min (s.pollInterval + cfg.pollAdjustment)
          cfg.slowestBrokerPollInterval }
    let s2 :=
      if clientNAT = "restricted" then
        { s1 with natFailures := s1.natFailures + 1 }
      else s1
    if s2.natFailures ≥ 3 then
      { s2 with natType := "restricted", natFailures := 0, maxNumClients := 1 }
    else s2
  else
    let s1 := { s with
      pollInterval :=
        max (s.pollInterval - cfg.pollAdjustment)
          cfg.defaultBrokerPollInterval
      natFailures := 0 }
    if s1.natType = "unrestricted" then
      { s1 with pollInterval := cfg.fastBrokerPollInterval, maxNumClients := 2 }
    else s1

/-- C6: on failure the poll interval becomes
`min(pollInterval + pollAdjustment, slowestBrokerPollInterval)`; on success
it becomes `max(pollInterval - pollAdjustment, defaultBrokerPollInterval)`
with `natFailures` reset to 0, except that an `unrestricted` own NAT yields
`fastBrokerPollInterval` and `maxNumClients = 2`. -/
theorem datachannelTimeout_poll_policy (cfg : SchedConfig)
    (clientNAT : String) (s : SchedState) :
    ((datachannelTimeoutCallback cfg clientNAT false s).pollInterval =
      min (s.pollInterval + cfg.pollAdjustment)
        cfg.slowestBrokerPollInterval) ∧
    ((datachannelTimeoutCallback cfg clientNAT true s).natFailures = 0) ∧
    (s.natType ≠ "unrestricted" →
      (datachannelTimeoutCallback cfg clientNAT true s).pollInterval =
        max (s.pollInterval - cfg.pollAdjustment)
          cfg.defaultBrokerPollInterval) ∧
    (s.natType = "unrestricted" →
      (datachannelTimeoutCallback cfg clientNAT true s).pollInterval =
          cfg.fastBrokerPollInterval ∧
        (datachannelTimeoutCallback cfg clientNAT true s).maxNumClients
          = 2) := by
  refine ⟨?_, ?_, ?_, ?_⟩
  · simp only [datachannelTimeoutCallback, Bool.not_false, if_true]
    split <;> split <;> rfl
  · simp only [datachannelTimeoutCallback, Bool.not_true, Bool.false_eq_true,
      if_false]
    split <;> rfl
  · intro hnat
    simp [datachannelTimeoutCallback, hnat]
  · intro hnat
    simp [datachannelTimeoutCallback, hnat]

/-- Witness for C6 at a concrete non-`unrestricted` state and the default
configuration. -/
theorem datachannelTimeout_poll_policy_witness :
    (SchedState.natType ⟨60000, 0, "unknown", 1⟩ ≠ "unrestricted") ∧
    ((datachannelTimeoutCallback defaultSchedConfig "unknown" true
        ⟨60000, 0, "unknown", 1⟩).pollInterval =
      max ((60000 : Int) - defaultSchedConfig.pollAdjustment)
        defaultSchedConfig.defaultBrokerPollInterval) :=
  ⟨by decide,
    (datachannelTimeout_poll_policy defaultSchedConfig "unknown"
      ⟨60000, 0, "unknown", 1⟩).2.2.1 (by decide)⟩

/-- C7: three consecutive failures with a `restricted` client NAT (starting
from `natFailures = 0`, with no intervening success) reclassify the proxy's
own NAT as `restricted`, reset `natFailures` to 0, and set
`maxNumClients = 1`. -/
theorem natFailures_three_restricted (cfg : SchedConfig) (s : SchedState)
    (h : s.natFailures = 0) :
    ((datachannelTimeoutCallback cfg "restricted" false
        (datachannelTimeoutCallback cfg "restricted" false
          (datachannelTimeoutCallback cfg "restricted" false s))).natType =
      "restricted") ∧
    ((datachannelTimeoutCallback cfg "restricted" false
        (datachannelTimeoutCallback cfg "restricted" false
          (datachannelTimeoutCallback cfg "restricted" false
            s))).natFailures = 0) ∧
    ((datachannelTimeoutCallback cfg "restricted" false
        (datachannelTimeoutCallback cfg "restricted" false
          (datachannelTimeoutCallback cfg "restricted" false
            s))).maxNumClients = 1) := by
  simp [datachannelTimeoutCallback, h]

/-- Witness for C7 at a concrete state with `natFailures = 0`. -/
theorem natFailures_three_restricted_witness :
    (SchedState.natFailures ⟨60000, 0, "unknown", 1⟩ = 0) ∧
    ((datachannelTimeoutCallback defaultSchedConfig "restricted" false
        (datachannelTimeoutCallback defaultSchedConfig "restricted" false
          (datachannelTimeoutCallback defaultSchedConfig "restricted" false
            ⟨60000, 0, "unknown", 1⟩))).natType = "restricted") :=
  ⟨rfl,
    (natFailures_three_restricted defaultSchedConfig
      ⟨60000, 0, "unknown", 1⟩ rfl).1⟩

/-! ## The answer latch in `ProxyPair.receiveWebRTCOffer`

`receiveWebRTCOffer` installs an `onicegatheringstatechange` handler and
(unless gathering is already complete) arms the `answerTimeout` timer.
`onceSendAnswer` invokes the `sendAnswer` callback, nulls the handler and
cancels the timer.  The events that can subsequently reach this latch are
modelled as `AnswerEvent`s driven through a step function. -/

/-- State of the answer latch: whether the gathering-state handler is still
installed, whether the answer timeout is still pending, whether
`pc.localDescription` has been set, and how many times `sendAnswer` was
invoked. -/
structure AnswerState where
  handlerInstalled : Bool
  timerArmed : Bool
  localDescSet : Bool
  sendCount : Nat
deriving DecidableEq

/-- `onceSendAnswer`: invoke `sendAnswer(pc.localDescription)`, null the
`onicegatheringstatechange` handler, and `clearTimeout(answerTimeoutId)`. -/
def onceSendAnswer (s : AnswerState) : AnswerState :=
  { s with
    sendCount := s.sendCount + 1
    handlerInstalled := false
    timerArmed := false }

/-- External events that can reach the answer latch: an ICE gathering state
change (with whether the new state is `complete` and whether the connection
is `closed`), the answer timeout firing, `setLocalDescription` resolving,
and `close()` running (which clears the timer). -/
inductive AnswerEvent
  | iceGatheringStateChange (complete : Bool) (connClosed : Bool)
  | answerTimeoutFire
  | localDescriptionSet
  | closeCalled
deriving DecidableEq

/-- One event step of the answer latch.  The gathering-state handler runs
only while installed and fires `onceSendAnswer` when gathering is complete
and the connection is not closed.  The timeout callback runs only while the
timer is pending; it returns without sending when no local description
exists yet, and otherwise fires `onceSendAnswer`. -/
def answerStep (s : AnswerState) (e : AnswerEvent) : AnswerState :=
  match e with
  | .iceGatheringStateChange complete connClosed =>
    if s.handlerInstalled && complete && !connClosed then
      onceSendAnswer s
    else s
  | .answerTimeoutFire =>
    if s.timerArmed then
      let s1 := { s with timerArmed := false }
      if !s1.localDescSet then s1 else onceSendAnswer s1
    else s
  | .localDescriptionSet => { s with localDescSet := true }
  | .closeCalled => { s with timerArmed := false }

/-- Latch state right after `receiveWebRTCOffer` returns `true`: when
`iceGatheringState` was already `complete`, `onceSendAnswer` already ran;
otherwise the handler is installed and the timer armed. -/
def answerInit (initiallyComplete : Bool) : AnswerState :=
  if initiallyComplete then
    { handlerInstalled := false, timerArmed := false, localDescSet := false
      sendCount := 1 }
  else
    { handlerInstalled := true, timerArmed := true, localDescSet := false
      sendCount := 0 }

/-- Run a sequence of events through the latch. -/
def answerRun (s : AnswerState) (evs : List AnswerEvent) : AnswerState :=
  evs.foldl answerStep s

/-- The latch invariant: at most one send, and once a send happened both
exits are disarmed. -/
def AnswerInv (s : AnswerState) : Prop :=
  s.sendCount ≤ 1 ∧
    (s.sendCount = 1 → s.handlerInstalled = false ∧ s.timerArmed = false)

theorem answerStep_preserves_inv (s : AnswerState) (e : AnswerEvent)
    (h : AnswerInv s) : AnswerInv (answerStep s e) := by
  obtain ⟨h1, h2⟩ := h
  have hsend : s.handlerInstalled = true ∨ s.timerArmed = true →
      AnswerInv (onceSendAnswer s) := by
    intro harm
    have hc0 : s.sendCount = 0 := by
      by_contra hne
      have hone : s.sendCount = 1 := by omega
      have := h2 hone
      rcases harm with ha | ha <;> simp [ha] at this
    constructor
    · simp [onceSendAnswer, hc0]
    · intro _; simp [onceSendAnswer]
  cases e with
  | iceGatheringStateChange complete connClosed =>
    simp only [answerStep]
    split
    · rename_i hg
      simp only [Bool.and_eq_true, Bool.not_eq_true'] at hg
      exact hsend (Or.inl hg.1.1)
    · exact ⟨h1, h2⟩
  | answerTimeoutFire =>
    simp only [answerStep]
    split
    · rename_i harm
      split
      · refine ⟨h1, fun hone => ?_⟩
        have := h2 hone
        simp [this.1]
      · have hc0 : s.sendCount = 0 := by
          by_contra hne
          have hone : s.sendCount = 1 := by omega
          have := h2 hone
          simp [harm] at this
        constructor
        · simp [onceSendAnswer, hc0]
        · intro _; simp [onceSendAnswer]
    · exact ⟨h1, h2⟩
  | localDescriptionSet =>
    refine ⟨h1, fun hone => ?_⟩
    exact h2 hone
  | closeCalled =>
    refine ⟨h1, fun hone => ?_⟩
    exact ⟨(h2 hone).1, rfl⟩

theorem answerRun_preserves_inv (s : AnswerState) (h : AnswerInv s)
    (evs : List AnswerEvent) : AnswerInv (answerRun s evs) := by
  induction evs generalizing s with
  | nil => exact h
  | cons e rest ih => exact ih _ (answerStep_preserves_inv s e h)

theorem answerInit_inv (b : Bool) : AnswerInv (answerInit b) := by
  cases b <;> simp [answerInit, AnswerInv]

/-- C3: over every event sequence following `receiveWebRTCOffer`,
`sendAnswer` is invoked at most once; the first of the two exits
(ICE gathering `complete`, or the answer timeout) sends and disarms the
other; and the timeout path sends only when a local description exists. -/
theorem sendAnswer_at_most_once :
    (∀ (initiallyComplete : Bool) (evs : List AnswerEvent),
      (answerRun (answerInit initiallyComplete) evs).sendCount ≤ 1) ∧
    (∀ s : AnswerState, s.localDescSet = false →
      (answerStep s .answerTimeoutFire).sendCount = s.sendCount) ∧
    (∀ s : AnswerState, s.handlerInstalled = true →
      (answerStep s (.iceGatheringStateChange true false)).sendCount =
          s.sendCount + 1 ∧
        (answerStep s (.iceGatheringStateChange true false)).timerArmed =
          false ∧
        (answerStep s (.iceGatheringStateChange true false)).handlerInstalled
          = false) ∧
    (∀ s : AnswerState, s.timerArmed = true → s.localDescSet = true →
      (answerStep s .answerTimeoutFire).sendCount = s.sendCount + 1 ∧
        (answerStep s .answerTimeoutFire).timerArmed = false ∧
        (answerStep s .answerTimeoutFire).handlerInstalled = false) := by
  refine ⟨?_, ?_, ?_, ?_⟩
  · intro b evs
    exact (answerRun_preserves_inv (answerInit b) (answerInit_inv b) evs).1
  · intro s hld
    simp only [answerStep]
    split
    · simp [hld]
    · rfl
  · intro s hh
    simp [answerStep, hh, onceSendAnswer]
  · intro s harm hld
    simp [answerStep, harm, hld, onceSendAnswer]

/-- Witness for C3: a concrete run in which ICE completes first and a later
timeout fire does not send again. -/
theorem sendAnswer_at_most_once_witness :
    ((answerRun (answerInit false)
        [.localDescriptionSet, .iceGatheringStateChange true false,
          .answerTimeoutFire]).sendCount ≤ 1) ∧
    (AnswerState.localDescSet ⟨true, true, false, 0⟩ = false) ∧
    ((answerStep ⟨true, true, false, 0⟩ .answerTimeoutFire).sendCount =
      AnswerState.sendCount ⟨true, true, false, 0⟩) :=
  ⟨sendAnswer_at_most_once.1 false
      [.localDescriptionSet, .iceGatheringStateChange true false,
        .answerTimeoutFire],
    rfl, sendAnswer_at_most_once.2.1 ⟨true, true, false, 0⟩ rfl⟩

/-! ## `ProxyPair.close` and the scheduler's cleanup hook

`close()` clears the three timers, closes whichever transports are still
open (each behind a readiness guard), and then unconditionally invokes
`this.onCleanup()`.  The hook installed by `Snowflake.makeProxyPair` looks
the pair up in `this.proxyPairs` and splices it out only when found. -/

/-- `readyState` of a WebRTC data channel / WebSocket. -/
inductive ChannelRS
  | connecting
  | opened
  | closing
  | closed
deriving DecidableEq

/-- The per-pair state read and written by `ProxyPair.close`, together with
the scheduler-side effects of the cleanup hook.  `client`/`relay` are
`none` while still `null`; `pcConnClosed` is `pc.connectionState ===
'closed'`; `pairInList` is membership in `snowflake.proxyPairs`;
`cleanupCalls` counts invocations of `onCleanup`, `removals` counts actual
splices. -/
structure PairState where
  client : Option ChannelRS
  pcPresent : Bool
  pcConnClosed : Bool
  relay : Option ChannelRS
  connectTimerArmed : Bool
  messageTimerArmed : Bool
  answerTimerArmed : Bool
  cleanupCalls : Nat
  pairInList : Bool
  removals : Nat
deriving DecidableEq

/-- `ProxyPair.webrtcIsReady()`: the data channel exists and is open. -/
def pairWebrtcIsReady (s : PairState) : Bool := s.client == some .opened

/-- `ProxyPair.peerConnOpen()`: the peer connection exists and its
connection state is not `closed`. -/
def pairPeerConnOpen (s : PairState) : Bool := s.pcPresent && !s.pcConnClosed

/-- `ProxyPair.relayIsReady()`: the websocket exists and is `OPEN`. -/
def pairRelayIsReady (s : PairState) : Bool := s.relay == some .opened

/-- The cleanup hook installed by `Snowflake.makeProxyPair`: find the pair
in `proxyPairs` and splice it out when present. -/
def onCleanupHook (s : PairState) : PairState :=
  if s.pairInList then
    { s with pairInList := false, removals := s.removals + 1 }
  else s

/-- `ProxyPair.close()`: clear the relay-connect, stale-message, and
answer timers; close the data channel, peer connection, and websocket when
each is still open; then invoke `onCleanup`. -/
def closePair (s : PairState) : PairState :=
  let s1 := { s with
    connectTimerArmed := false
    messageTimerArmed := false
    answerTimerArmed := false }
  let s2 := if pairWebrtcIsReady s1 then { s1 with client := some .closing }
    else s1
  let s3 := if pairPeerConnOpen s2 then { s2 with pcConnClosed := true }
    else s2
  let s4 := if pairRelayIsReady s3 then { s3 with relay := some .closing }
    else s3
  onCleanupHook { s4 with cleanupCalls := s4.cleanupCalls + 1 }

theorem closePair_not_ready (s : PairState) :
    pairWebrtcIsReady (closePair s) = false ∧
    pairPeerConnOpen (closePair s) = false ∧
    pairRelayIsReady (closePair s) = false ∧
    (closePair s).pairInList = false ∧
    (closePair s).cleanupCalls = s.cleanupCalls + 1 ∧
    (closePair s).removals =
      s.removals + (if s.pairInList then 1 else 0) := by
  simp only [closePair, onCleanupHook, pairWebrtcIsReady, pairPeerConnOpen,
    pairRelayIsReady]
  split_ifs <;> simp_all [pairWebrtcIsReady, pairPeerConnOpen,
    pairRelayIsReady]

theorem closePair_stable (s : PairState)
    (h1 : pairWebrtcIsReady s = false) (h2 : pairPeerConnOpen s = false)
    (h3 : pairRelayIsReady s = false) (h4 : s.pairInList = false) :
    (closePair s).client = s.client ∧
    (closePair s).pcConnClosed = s.pcConnClosed ∧
    (closePair s).relay = s.relay ∧
    (closePair s).removals = s.removals ∧
    (closePair s).cleanupCalls = s.cleanupCalls + 1 := by
  simp only [closePair, onCleanupHook, pairWebrtcIsReady, pairPeerConnOpen,
    pairRelayIsReady] at *
  split_ifs <;> simp_all

/-- Counterexample to C4 as stated: from a fully-open forwarding state, the
first `close()` invokes the cleanup hook once, and a second `close()` (as
happens on re-entry through a transport's `onclose` handler) invokes it
again — the hook does not fire exactly once. -/
theorem close_cleanup_twice_counterexample :
    (closePair
        ⟨some .opened, true, false, some .opened, true, true, false, 0,
          true, 0⟩).cleanupCalls = 1 ∧
    (closePair (closePair
        ⟨some .opened, true, false, some .opened, true, true, false, 0,
          true, 0⟩)).cleanupCalls = 2 := by
  constructor <;> rfl

/-- C4 (amended): a second `close()` performs no further transport
teardown — every readiness guard is already false, so the channel, the
peer connection and the websocket are untouched — and the hook's effect
(removing the pair from `proxyPairs`) happens at most once, on the first
call; however `onCleanup` itself is invoked again on every call. -/
theorem close_second_call_no_teardown (s : PairState) :
    pairWebrtcIsReady (closePair s) = false ∧
    pairPeerConnOpen (closePair s) = false ∧
    pairRelayIsReady (closePair s) = false ∧
    (closePair (closePair s)).client = (closePair s).client ∧
    (closePair (closePair s)).pcConnClosed = (closePair s).pcConnClosed ∧
    (closePair (closePair s)).relay = (closePair s).relay ∧
    (closePair (closePair s)).removals = (closePair s).removals ∧
    (closePair s).removals = s.removals + (if s.pairInList then 1 else 0) ∧
    (closePair (closePair s)).cleanupCalls =
      (closePair s).cleanupCalls + 1 := by
  obtain ⟨h1, h2, h3, h4, h5, h6⟩ := closePair_not_ready s
  obtain ⟨g1, g2, g3, g4, g5⟩ := closePair_stable (closePair s) h1 h2 h3 h4
  exact ⟨h1, h2, h3, g1, g2, g3, g4, h6, g5⟩

/-! ## `ProxyPair.flush` and bidirectional forwarding

`flush()` loops while progress is made and the rate limiter is not
limited; each iteration tries one client→relay send and one relay→client
send, each guarded by a non-empty queue, an open destination, and
`bufferedAmount < MAX_BUFFER`.  A send shifts the front chunk off the
queue, hands it to the destination (which adds its bytes to
`bufferedAmount`), and updates the rate limiter.  The rate limiter is
abstract (`RateLimiter ρ`); the trailing re-arm of `flush_timeout_id` is
pure scheduling and is not part of the state here.  The loop is expressed
with an explicit iteration bound (`fuel`); every busy iteration consumes at
least one queued chunk, so `totalQueued + 1` iterations reproduce the
source loop, and all theorems below hold for every fuel. -/

/-- An opaque binary message; `byteLength` is the only attribute the code
reads. -/
structure Chunk where
  id : Nat
  byteLength : Nat
deriving DecidableEq

/-- The rate-limiter capability consumed by `ProxyPair`
(`isLimited`/`update` over some limiter state `ρ`). -/
structure RateLimiter (ρ : Type) where
  isLimited : ρ → Bool
  update : ρ → Nat → ρ

/-- `DummyRateLimit`: never limited, `update` is a no-op. -/
def dummyRateLimit : RateLimiter Unit :=
  { isLimited := fun _ => false, update := fun _ _ => () }

/-- `ProxyPair.prototype.MAX_BUFFER = 10 * 1024 * 1024`. -/
def MAX_BUFFER : Nat := 10 * 1024 * 1024

/-- The state touched by `flush`: the two queues, the two destination
transports (openness and buffered bytes), the limiter state, and — for the
statements — the cumulative lists of chunks handed to each destination. -/
structure FlushState (ρ : Type) where
  c2rSchedule : List Chunk
  r2cSchedule : List Chunk
  relayOpen : Bool
  clientOpen : Bool
  relayBuffered : Nat
  clientBuffered : Nat
  rlState : ρ
  relaySent : List Chunk
  clientSent : List Chunk

/-- A record of one `send` performed by `flush`, with the guard values
observed when it happened. -/
structure SendEvent where
  toRelay : Bool
  chunk : Chunk
  bufferedBefore : Nat
  destOpen : Bool
  limitedAtIterStart : Bool
deriving DecidableEq

/-- The client→relay branch of one `flush` iteration:
`if (c2rSchedule.length > 0 && relayIsReady() && relay.bufferedAmount <
MAX_BUFFER) { shift; relay.send(chunk); rateLimit.update(...); busy }`. -/
def tryC2R {ρ : Type} (rl : RateLimiter ρ) (lim : Bool)
    (s : FlushState ρ) : FlushState ρ × List SendEvent × Bool :=
  match s.c2rSchedule with
  | [] => (s, [], false)
  | c :: rest =>
    if s.relayOpen && decide (s.relayBuffered < MAX_BUFFER) then
      ({ s with
          c2rSchedule := rest
          relaySent := s.relaySent ++ [c]
          relayBuffered := s.relayBuffered + c.byteLength
          rlState := rl.update s.rlState c.byteLength },
        [⟨true, c, s.relayBuffered, s.relayOpen, lim⟩], true)
    else (s, [], false)

/-- The relay→client branch of one `flush` iteration, mirror of `tryC2R`
with the data channel as destination. -/
def tryR2C {ρ : Type} (rl : RateLimiter ρ) (lim : Bool)
    (s : FlushState ρ) : FlushState ρ × List SendEvent × Bool :=
  match s.r2cSchedule with
  | [] => (s, [], false)
  | c :: rest =>
    if s.clientOpen && decide (s.clientBuffered < MAX_BUFFER) then
      ({ s with
          r2cSchedule := rest
          clientSent := s.clientSent ++ [c]
          clientBuffered := s.clientBuffered + c.byteLength
          rlState := rl.update s.rlState c.byteLength },
        [⟨false, c, s.clientBuffered, s.clientOpen, lim⟩], true)
    else (s, [], false)

/-- The `while (busy && !rateLimit.isLimited())` loop of `flush`, with an
explicit iteration bound. -/
def flushLoop {ρ : Type} (rl : RateLimiter ρ) :
    Nat → FlushState ρ → FlushState ρ × List SendEvent
  | 0, s => (s, [])
  | fuel + 1, s =>
    if rl.isLimited s.rlState then (s, [])
    else
      let lim := rl.isLimited s.rlState
      let r1 := tryC2R rl lim s
      let r2 := tryR2C rl lim r1.1
      if r1.2.2 || r2.2.2 then
        let r3 := flushLoop rl fuel r2.1
        (r3.1, r1.2.1 ++ r2.2.1 ++ r3.2)
      else (r2.1, r1.2.1 ++ r2.2.1)

/-- `ProxyPair.flush()`: run the loop with enough fuel for every queued
chunk (each busy iteration dequeues at least one). -/
def flush {ρ : Type} (rl : RateLimiter ρ) (s : FlushState ρ) :
    FlushState ρ × List SendEvent :=
  flushLoop rl (s.c2rSchedule.length + s.r2cSchedule.length + 1) s

theorem tryC2R_cases {ρ : Type} (rl : RateLimiter ρ) (lim : Bool)
    (s : FlushState ρ) :
    tryC2R rl lim s = (s, [], false) ∨
    ∃ c rest, s.c2rSchedule = c :: rest ∧ s.relayOpen = true ∧
      s.relayBuffered < MAX_BUFFER ∧
      tryC2R rl lim s =
        ({ s with
            c2rSchedule := rest
            relaySent := s.relaySent ++ [c]
            relayBuffered := s.relayBuffered + c.byteLength
            rlState := rl.update s.rlState c.byteLength },
          [⟨true, c, s.relayBuffered, s.relayOpen, lim⟩], true) := by
  rcases hq : s.c2rSchedule with _ | ⟨c, rest⟩
  · left
    simp [tryC2R, hq]
  · by_cases h1 : s.relayOpen = true
    · by_cases h2 : s.relayBuffered < MAX_BUFFER
      · right
        exact ⟨c, rest, rfl, h1, h2, by simp [tryC2R, hq, h1, h2]⟩
      · left
        simp [tryC2R, hq, h1, h2]
    · left
      simp [tryC2R, hq, h1]

theorem tryR2C_cases {ρ : Type} (rl : RateLimiter ρ) (lim : Bool)
    (s : FlushState ρ) :
    tryR2C rl lim s = (s, [], false) ∨
    ∃ c rest, s.r2cSchedule = c :: rest ∧ s.clientOpen = true ∧
      s.clientBuffered < MAX_BUFFER ∧
      tryR2C rl lim s =
        ({ s with
            r2cSchedule := rest
            clientSent := s.clientSent ++ [c]
            clientBuffered := s.clientBuffered + c.byteLength
            rlState := rl.update s.rlState c.byteLength },
          [⟨false, c, s.clientBuffered, s.clientOpen, lim⟩], true) := by
  rcases hq : s.r2cSchedule with _ | ⟨c, rest⟩
  · left
    simp [tryR2C, hq]
  · by_cases h1 : s.clientOpen = true
    · by_cases h2 : s.clientBuffered < MAX_BUFFER
      · right
        exact ⟨c, rest, rfl, h1, h2, by simp [tryR2C, hq, h1, h2]⟩
      · left
        simp [tryR2C, hq, h1, h2]
    · left
      simp [tryR2C, hq, h1]

theorem tryC2R_preserves {ρ : Type} (rl : RateLimiter ρ) (lim : Bool)
    (s : FlushState ρ) :
    (tryC2R rl lim s).1.r2cSchedule = s.r2cSchedule ∧
    (tryC2R rl lim s).1.clientBuffered = s.clientBuffered ∧
    (tryC2R rl lim s).1.clientSent = s.clientSent ∧
    (tryC2R rl lim s).1.clientOpen = s.clientOpen ∧
    (tryC2R rl lim s).1.relayOpen = s.relayOpen := by
  rcases tryC2R_cases rl lim s with h | ⟨c, rest, hq, ho, hb, h⟩ <;>
    simp [h]

theorem tryR2C_preserves {ρ : Type} (rl : RateLimiter ρ) (lim : Bool)
    (s : FlushState ρ) :
    (tryR2C rl lim s).1.c2rSchedule = s.c2rSchedule ∧
    (tryR2C rl lim s).1.relayBuffered = s.relayBuffered ∧
    (tryR2C rl lim s).1.relaySent = s.relaySent ∧
    (tryR2C rl lim s).1.relayOpen = s.relayOpen ∧
    (tryR2C rl lim s).1.clientOpen = s.clientOpen := by
  rcases tryR2C_cases rl lim s with h | ⟨c, rest, hq, ho, hb, h⟩ <;>
    simp [h]

theorem tryC2R_events {ρ : Type} (rl : RateLimiter ρ) (lim : Bool)
    (s : FlushState ρ) :
    ∀ ev ∈ (tryC2R rl lim s).2.1,
      ev.destOpen = true ∧ ev.bufferedBefore < MAX_BUFFER ∧
        ev.limitedAtIterStart = lim := by
  rcases tryC2R_cases rl lim s with h | ⟨c, rest, hq, ho, hb, h⟩
  · simp [h]
  · simp [h, ho, hb]

theorem tryR2C_events {ρ : Type} (rl : RateLimiter ρ) (lim : Bool)
    (s : FlushState ρ) :
    ∀ ev ∈ (tryR2C rl lim s).2.1,
      ev.destOpen = true ∧ ev.bufferedBefore < MAX_BUFFER ∧
        ev.limitedAtIterStart = lim := by
  rcases tryR2C_cases rl lim s with h | ⟨c, rest, hq, ho, hb, h⟩
  · simp [h]
  · simp [h, ho, hb]

theorem tryC2R_c2r_sub {ρ : Type} (rl : RateLimiter ρ) (lim : Bool)
    (s : FlushState ρ) :
    ∀ c ∈ (tryC2R rl lim s).1.c2rSchedule, c ∈ s.c2rSchedule := by
  rcases tryC2R_cases rl lim s with h | ⟨c, rest, hq, ho, hb, h⟩
  · simp [h]
  · simp [h, hq]
    intro a ha
    exact Or.inr ha

theorem tryR2C_r2c_sub {ρ : Type} (rl : RateLimiter ρ) (lim : Bool)
    (s : FlushState ρ) :
    ∀ c ∈ (tryR2C rl lim s).1.r2cSchedule, c ∈ s.r2cSchedule := by
  rcases tryR2C_cases rl lim s with h | ⟨c, rest, hq, ho, hb, h⟩
  · simp [h]
  · simp [h, hq]
    intro a ha
    exact Or.inr ha

theorem tryC2R_relayBuffered_le {ρ : Type} (rl : RateLimiter ρ) (lim : Bool)
    (s : FlushState ρ) (L : Nat)
    (hL : ∀ c ∈ s.c2rSchedule, c.byteLength ≤ L) :
    (tryC2R rl lim s).1.relayBuffered ≤
      max s.relayBuffered (MAX_BUFFER - 1 + L) := by
  rcases tryC2R_cases rl lim s with h | ⟨c, rest, hq, ho, hb, h⟩
  · simp [h]
  · have hcL : c.byteLength ≤ L := hL c (by simp [hq])
    simp only [h]
    refine le_max_of_le_right ?_
    have : MAX_BUFFER = 10 * 1024 * 1024 := rfl
    omega

theorem tryR2C_clientBuffered_le {ρ : Type} (rl : RateLimiter ρ) (lim : Bool)
    (s : FlushState ρ) (L : Nat)
    (hL : ∀ c ∈ s.r2cSchedule, c.byteLength ≤ L) :
    (tryR2C rl lim s).1.clientBuffered ≤
      max s.clientBuffered (MAX_BUFFER - 1 + L) := by
  rcases tryR2C_cases rl lim s with h | ⟨c, rest, hq, ho, hb, h⟩
  · simp [h]
  · have hcL : c.byteLength ≤ L := hL c (by simp [hq])
    simp only [h]
    refine le_max_of_le_right ?_
    have : MAX_BUFFER = 10 * 1024 * 1024 := rfl
    omega

theorem flushLoop_events {ρ : Type} (rl : RateLimiter ρ) (fuel : Nat)
    (s : FlushState ρ) :
    ∀ ev ∈ (flushLoop rl fuel s).2,
      ev.destOpen = true ∧ ev.bufferedBefore < MAX_BUFFER ∧
        ev.limitedAtIterStart = false := by
  induction fuel generalizing s with
  | zero => simp [flushLoop]
  | succ n ih =>
    intro ev hev
    by_cases hlim : rl.isLimited s.rlState = true
    · simp [flushLoop, hlim] at hev
    · have hlim' : rl.isLimited s.rlState = false := by
        simpa using hlim
      simp only [flushLoop, hlim', Bool.false_eq_true, if_false] at hev
      split at hev
      · simp only [List.append_assoc, List.mem_append] at hev
        rcases hev with h | h | h
        · exact tryC2R_events rl false s ev h
        · exact tryR2C_events rl false _ ev h
        · exact ih _ ev h
      · simp only [List.mem_append] at hev
        rcases hev with h | h
        · exact tryC2R_events rl false s ev h
        · exact tryR2C_events rl false _ ev h

theorem flushLoop_relayBound {ρ : Type} (rl : RateLimiter ρ) (L : Nat)
    (fuel : Nat) (s : FlushState ρ)
    (hL : ∀ c ∈ s.c2rSchedule, c.byteLength ≤ L) :
    (flushLoop rl fuel s).1.relayBuffered ≤
      max s.relayBuffered (MAX_BUFFER - 1 + L) := by
  induction fuel generalizing s with
  | zero => simp [flushLoop]
  | succ n ih =>
    by_cases hlim : rl.isLimited s.rlState = true
    · simp [flushLoop, hlim]
    · have hlim' : rl.isLimited s.rlState = false := by
        simpa using hlim
      simp only [flushLoop, hlim', Bool.false_eq_true, if_false]
      have h1 : (tryC2R rl false s).1.relayBuffered ≤
          max s.relayBuffered (MAX_BUFFER - 1 + L) :=
        tryC2R_relayBuffered_le rl false s L hL
      have h2 : (tryR2C rl false (tryC2R rl false s).1).1.relayBuffered =
          (tryC2R rl false s).1.relayBuffered :=
        (tryR2C_preserves rl false (tryC2R rl false s).1).2.1
      have hsub : ∀ c ∈
          (tryR2C rl false (tryC2R rl false s).1).1.c2rSchedule,
          c.byteLength ≤ L := by
        intro c hc
        rw [(tryR2C_preserves rl false (tryC2R rl false s).1).1] at hc
        exact hL c (tryC2R_c2r_sub rl false s c hc)
      split
      · refine le_trans (ih _ hsub) (max_le ?_ (le_max_right _ _))
        rw [h2]
        exact h1
      · rw [h2]
        exact h1

theorem flushLoop_clientBound {ρ : Type} (rl : RateLimiter ρ) (L : Nat)
    (fuel : Nat) (s : FlushState ρ)
    (hL : ∀ c ∈ s.r2cSchedule, c.byteLength ≤ L) :
    (flushLoop rl fuel s).1.clientBuffered ≤
      max s.clientBuffered (MAX_BUFFER - 1 + L) := by
  induction fuel generalizing s with
  | zero => simp [flushLoop]
  | succ n ih =>
    by_cases hlim : rl.isLimited s.rlState = true
    · simp [flushLoop, hlim]
    · have hlim' : rl.isLimited s.rlState = false := by
        simpa using hlim
      simp only [flushLoop, hlim', Bool.false_eq_true, if_false]
      have h0 : (tryC2R rl false s).1.clientBuffered = s.clientBuffered :=
        (tryC2R_preserves rl false s).2.1
      have h0q : (tryC2R rl false s).1.r2cSchedule = s.r2cSchedule :=
        (tryC2R_preserves rl false s).1
      have h1 : (tryR2C rl false (tryC2R rl false s).1).1.clientBuffered ≤
          max s.clientBuffered (MAX_BUFFER - 1 + L) := by
        have := tryR2C_clientBuffered_le rl false (tryC2R rl false s).1 L
          (by rw [h0q]; exact hL)
        rw [h0] at this
        exact this
      have hsub : ∀ c ∈
          (tryR2C rl false (tryC2R rl false s).1).1.r2cSchedule,
          c.byteLength ≤ L := by
        intro c hc
        have := tryR2C_r2c_sub rl false (tryC2R rl false s).1 c hc
        rw [h0q] at this
        exact hL c this
      split
      · exact le_trans (ih _ hsub) (max_le h1 (le_max_right _ _))
      · exact h1

theorem tryC2R_conserve {ρ : Type} (rl : RateLimiter ρ) (lim : Bool)
    (s : FlushState ρ) :
    (tryC2R rl lim s).1.relaySent ++ (tryC2R rl lim s).1.c2rSchedule =
      s.relaySent ++ s.c2rSchedule := by
  rcases tryC2R_cases rl lim s with h | ⟨c, rest, hq, ho, hb, h⟩
  · simp [h]
  · simp [h, hq]

theorem tryR2C_conserve {ρ : Type} (rl : RateLimiter ρ) (lim : Bool)
    (s : FlushState ρ) :
    (tryR2C rl lim s).1.clientSent ++ (tryR2C rl lim s).1.r2cSchedule =
      s.clientSent ++ s.r2cSchedule := by
  rcases tryR2C_cases rl lim s with h | ⟨c, rest, hq, ho, hb, h⟩
  · simp [h]
  · simp [h, hq]

theorem flushLoop_conserve {ρ : Type} (rl : RateLimiter ρ) (fuel : Nat)
    (s : FlushState ρ) :
    (flushLoop rl fuel s).1.relaySent ++
        (flushLoop rl fuel s).1.c2rSchedule =
      s.relaySent ++ s.c2rSchedule ∧
    (flushLoop rl fuel s).1.clientSent ++
        (flushLoop rl fuel s).1.r2cSchedule =
      s.clientSent ++ s.r2cSchedule := by
  induction fuel generalizing s with
  | zero => simp [flushLoop]
  | succ n ih =>
    by_cases hlim : rl.isLimited s.rlState = true
    · simp [flushLoop, hlim]
    · have hlim' : rl.isLimited s.rlState = false := by
        simpa using hlim
      simp only [flushLoop, hlim', Bool.false_eq_true, if_false]
      have e1 := tryC2R_conserve rl false s
      have e1p := tryC2R_preserves rl false s
      have e2 := tryR2C_conserve rl false (tryC2R rl false s).1
      have e2p := tryR2C_preserves rl false (tryC2R rl false s).1
      split
      · obtain ⟨ih1, ih2⟩ := ih ((tryR2C rl false (tryC2R rl false s).1).1)
        constructor
        · rw [ih1, e2p.2.2.1, e2p.1]
          exact e1
        · rw [ih2, e2]
          rw [e1p.2.2.1, e1p.1]
      · constructor
        · rw [e2p.2.2.1, e2p.1]
          exact e1
        · rw [e2]
          rw [e1p.2.2.1, e1p.1]

/-! ## Session-level forwarding (message handlers + flush) -/

/-- The external events that drive forwarding in a session: a chunk arrives
on the data channel (`onClientToRelayMessage`), a chunk arrives on the
websocket (`onRelayToClientMessage`), or a deferred flush timer fires. -/
inductive SessionEvent
  | clientMessage (c : Chunk)
  | relayMessage (c : Chunk)
  | flushTimer

/-- `ProxyPair.onClientToRelayMessage`: push the chunk onto the back of
`c2rSchedule`, then `flush()` (the stale-timeout refresh is timer
bookkeeping only). -/
def onClientToRelayMessage {ρ : Type} (rl : RateLimiter ρ) (c : Chunk)
    (s : FlushState ρ) : FlushState ρ :=
  (flush rl { s with c2rSchedule := s.c2rSchedule ++ [c] }).1

/-- `ProxyPair.onRelayToClientMessage`: push the chunk onto the back of
`r2cSchedule`, then `flush()`. -/
def onRelayToClientMessage {ρ : Type} (rl : RateLimiter ρ) (c : Chunk)
    (s : FlushState ρ) : FlushState ρ :=
  (flush rl { s with r2cSchedule := s.r2cSchedule ++ [c] }).1

/-- One session event. -/
def sessionStep {ρ : Type} (rl : RateLimiter ρ) (s : FlushState ρ) :
    SessionEvent → FlushState ρ
  | .clientMessage c => onClientToRelayMessage rl c s
  | .relayMessage c => onRelayToClientMessage rl c s
  | .flushTimer => (flush rl s).1

/-- Run a sequence of session events. -/
def sessionRun {ρ : Type} (rl : RateLimiter ρ) (s : FlushState ρ)
    (evs : List SessionEvent) : FlushState ρ :=
  evs.foldl (sessionStep rl) s

/-- The chunks received on the data channel, in arrival order. -/
def receivedFromClient (evs : List SessionEvent) : List Chunk :=
  evs.filterMap fun e =>
    match e with
    | .clientMessage c => some c
    | _ => none

/-- The chunks received on the websocket, in arrival order. -/
def receivedFromRelay (evs : List SessionEvent) : List Chunk :=
  evs.filterMap fun e =>
    match e with
    | .relayMessage c => some c
    | _ => none

theorem flush_conserve {ρ : Type} (rl : RateLimiter ρ) (s : FlushState ρ) :
    (flush rl s).1.relaySent ++ (flush rl s).1.c2rSchedule =
      s.relaySent ++ s.c2rSchedule ∧
    (flush rl s).1.clientSent ++ (flush rl s).1.r2cSchedule =
      s.clientSent ++ s.r2cSchedule :=
  flushLoop_conserve rl _ s

theorem sessionStep_conserve {ρ : Type} (rl : RateLimiter ρ)
    (s : FlushState ρ) (e : SessionEvent) :
    ((sessionStep rl s e).relaySent ++ (sessionStep rl s e).c2rSchedule =
      (s.relaySent ++ s.c2rSchedule) ++
        (match e with | .clientMessage c => [c] | _ => [])) ∧
    ((sessionStep rl s e).clientSent ++ (sessionStep rl s e).r2cSchedule =
      (s.clientSent ++ s.r2cSchedule) ++
        (match e with | .relayMessage c => [c] | _ => [])) := by
  cases e with
  | clientMessage c =>
    have h := flush_conserve rl { s with c2rSchedule := s.c2rSchedule ++ [c] }
    constructor
    · simpa [sessionStep, onClientToRelayMessage] using h.1
    · simpa [sessionStep, onClientToRelayMessage] using h.2
  | relayMessage c =>
    have h := flush_conserve rl { s with r2cSchedule := s.r2cSchedule ++ [c] }
    constructor
    · simpa [sessionStep, onRelayToClientMessage] using h.1
    · simpa [sessionStep, onRelayToClientMessage] using h.2
  | flushTimer =>
    have h := flush_conserve rl s
    constructor
    · simpa [sessionStep] using h.1
    · simpa [sessionStep] using h.2

theorem sessionRun_conserve {ρ : Type} (rl : RateLimiter ρ)
    (evs : List SessionEvent) :
    ∀ s : FlushState ρ,
      ((sessionRun rl s evs).relaySent ++
          (sessionRun rl s evs).c2rSchedule =
        (s.relaySent ++ s.c2rSchedule) ++ receivedFromClient evs) ∧
      ((sessionRun rl s evs).clientSent ++
          (sessionRun rl s evs).r2cSchedule =
        (s.clientSent ++ s.r2cSchedule) ++ receivedFromRelay evs) := by
  induction evs with
  | nil =>
    intro s
    simp [sessionRun, receivedFromClient, receivedFromRelay]
  | cons e rest ih =>
    intro s
    have hrun : sessionRun rl s (e :: rest) =
        sessionRun rl (sessionStep rl s e) rest := rfl
    have hstep := sessionStep_conserve rl s e
    obtain ⟨ih1, ih2⟩ := ih (sessionStep rl s e)
    constructor
    · rw [hrun, ih1, hstep.1]
      cases e <;>
        simp [receivedFromClient, List.filterMap_cons, List.append_assoc]
    · rw [hrun, ih2, hstep.2]
      cases e <;>
        simp [receivedFromRelay, List.filterMap_cons, List.append_assoc]

/-- Counterexample to C5 as stated: with the destination one byte under
`MAX_BUFFER`, `flush` still sends a 2-byte chunk (the guard only requires
`bufferedAmount < MAX_BUFFER`), pushing the destination's buffered bytes
above `MAX_BUFFER`. -/
theorem flush_overshoot_counterexample :
    (flush dummyRateLimit
        (⟨[⟨0, 2⟩], [], true, false, MAX_BUFFER - 1, 0, (), [], []⟩ :
          FlushState Unit)).1.relayBuffered = MAX_BUFFER + 1 ∧
    MAX_BUFFER + 1 > MAX_BUFFER := by
  constructor
  · rfl
  · decide

/-- C5 (amended): every send performed by `flush` happens only with the
destination transport open, the destination's buffered bytes strictly below
`MAX_BUFFER`, and the rate limiter not limited at the start of that loop
iteration; consequently the destination's buffered bytes never exceed
`MAX_BUFFER - 1` plus the size of one queued chunk (rather than never
exceeding `MAX_BUFFER`). -/
theorem flush_send_guards {ρ : Type} (rl : RateLimiter ρ) (fuel : Nat)
    (s : FlushState ρ) (L : Nat)
    (hc : ∀ c ∈ s.c2rSchedule, c.byteLength ≤ L)
    (hr : ∀ c ∈ s.r2cSchedule, c.byteLength ≤ L) :
    (∀ ev ∈ (flushLoop rl fuel s).2,
      ev.destOpen = true ∧ ev.bufferedBefore < MAX_BUFFER ∧
        ev.limitedAtIterStart = false) ∧
    (flushLoop rl fuel s).1.relayBuffered ≤
      max s.relayBuffered (MAX_BUFFER - 1 + L) ∧
    (flushLoop rl fuel s).1.clientBuffered ≤
      max s.clientBuffered (MAX_BUFFER - 1 + L) :=
  ⟨flushLoop_events rl fuel s, flushLoop_relayBound rl L fuel s hc,
    flushLoop_clientBound rl L fuel s hr⟩

/-- Witness for C5 (amended) at a concrete one-chunk state. -/
theorem flush_send_guards_witness :
    (Chunk.byteLength ⟨0, 2⟩ ≤ 2) ∧
    (flushLoop dummyRateLimit 2
        (⟨[⟨0, 2⟩], [], true, false, MAX_BUFFER - 1, 0, (), [], []⟩ :
          FlushState Unit)).1.relayBuffered ≤
      max (MAX_BUFFER - 1) (MAX_BUFFER - 1 + 2) :=
  ⟨by decide,
    (flush_send_guards dummyRateLimit 2
      ⟨[⟨0, 2⟩], [], true, false, MAX_BUFFER - 1, 0, (), [], []⟩ 2
      (by decide) (by decide)).2.1⟩

/-- C8: starting from empty queues and empty send histories, after any
sequence of session events the chunks handed to each destination followed
by that direction's still-queued chunks are exactly the chunks received on
the opposite transport, in arrival order — no reordering, merging or
splitting, with receivers appending to the back and `flush` popping from
the front. -/
theorem forwarding_order {ρ : Type} (rl : RateLimiter ρ)
    (s0 : FlushState ρ) (evs : List SessionEvent)
    (h1 : s0.relaySent = []) (h2 : s0.c2rSchedule = [])
    (h3 : s0.clientSent = []) (h4 : s0.r2cSchedule = []) :
    (sessionRun rl s0 evs).relaySent ++
        (sessionRun rl s0 evs).c2rSchedule =
      receivedFromClient evs ∧
    (sessionRun rl s0 evs).clientSent ++
        (sessionRun rl s0 evs).r2cSchedule =
      receivedFromRelay evs := by
  obtain ⟨a, b⟩ := sessionRun_conserve rl evs s0
  rw [h1, h2] at a
  rw [h3, h4] at b
  simpa using ⟨a, b⟩

/-- Witness for C8 on a concrete two-message run. -/
theorem forwarding_order_witness :
    (sessionRun dummyRateLimit
        (⟨[], [], true, true, 0, 0, (), [], []⟩ : FlushState Unit)
        [.clientMessage ⟨1, 5⟩, .relayMessage ⟨2, 7⟩]).relaySent ++
      (sessionRun dummyRateLimit
        (⟨[], [], true, true, 0, 0, (), [], []⟩ : FlushState Unit)
        [.clientMessage ⟨1, 5⟩, .relayMessage ⟨2, 7⟩]).c2rSchedule =
      receivedFromClient
        [.clientMessage ⟨1, 5⟩, .relayMessage ⟨2, 7⟩] ∧
    (sessionRun dummyRateLimit
        (⟨[], [], true, true, 0, 0, (), [], []⟩ : FlushState Unit)
        [.clientMessage ⟨1, 5⟩, .relayMessage ⟨2, 7⟩]).clientSent ++
      (sessionRun dummyRateLimit
        (⟨[], [], true, true, 0, 0, (), [], []⟩ : FlushState Unit)
        [.clientMessage ⟨1, 5⟩, .relayMessage ⟨2, 7⟩]).r2cSchedule =
      receivedFromRelay
        [.clientMessage ⟨1, 5⟩, .relayMessage ⟨2, 7⟩] :=
  forwarding_order dummyRateLimit
    ⟨[], [], true, true, 0, 0, (), [], []⟩
    [.clientMessage ⟨1, 5⟩, .relayMessage ⟨2, 7⟩] rfl rfl rfl rfl

/-! ## Rate-limiter selection at `Snowflake` construction -/

/-- Which rate limiter the `Snowflake` constructor builds, with the
constructor arguments of the token bucket. -/
inductive RateLimitKind
  | dummy
  | bucket (capacity : Nat) (window : Nat)
deriving DecidableEq

/-- The `Snowflake` constructor's limiter selection: `undefined`
`rateLimitBytes` yields `new DummyRateLimit()`, otherwise
`new BucketRateLimit(rateLimitBytes * rateLimitHistory,
rateLimitHistory)`. -/
def selectRateLimit (rateLimitBytes : Option Nat) (rateLimitHistory : Nat) :
    RateLimitKind :=
  match rateLimitBytes with
  | none => .dummy
  | some b => .bucket (b * rateLimitHistory) rateLimitHistory

/-- `Config.prototype.minRateLimit = 10 * 1024` (bytes per second). -/
def minRateLimit : Nat := 10 * 1024

/-- Modelled from the spec: the check that rejects a configuration whose
`rateLimitBytes` is below `minRateLimit` lives in the parameter-parsing
utilities, which are not among the provided sources (only the
`minRateLimit` declaration in `Config` is); per the spec, a configuration
with `rateLimitBytes < minRateLimit (10 KiB/s)` is rejected. -/
def rateLimitConfigAccepted (rateLimitBytes : Option Nat) : Bool :=
  match rateLimitBytes with
  | none => true
  | some b => decide (b ≥ minRateLimit)

/-- C9: an absent `rateLimitBytes` selects the null limiter; a present one
selects a token bucket with capacity `rateLimitBytes × rateLimitHistory`
and window `rateLimitHistory`; and `rateLimitBytes` below
`minRateLimit = 10 KiB/s` is rejected. -/
theorem rateLimit_construction (histWindow : Nat) (b : Nat) :
    selectRateLimit none histWindow = .dummy ∧
    selectRateLimit (some b) histWindow =
      .bucket (b * histWindow) histWindow ∧
    (b < minRateLimit → rateLimitConfigAccepted (some b) = false) ∧
    minRateLimit = 10 * 1024 := by
  refine ⟨rfl, rfl, ?_, rfl⟩
  intro hb
  simp only [rateLimitConfigAccepted, decide_eq_false_iff_not, ge_iff_le,
    not_le]
  exact hb

/-- Witness for C9 at `rateLimitBytes = 5`. -/
theorem rateLimit_construction_witness :
    (5 : Nat) < minRateLimit ∧ rateLimitConfigAccepted (some 5) = false :=
  ⟨by decide, (rateLimit_construction 5 5).2.2.1 (by decide)⟩

end SnowflakeProxy
